import Mathlib

/-!
Verification of the VmbPy asynchronous-grab example (src/main.py): a shallow
embedding in Lean of the frame handler, its bounded display queue, the CLI
argument parsing, camera lookup, the display loop's cleanup, and the
frame-rate counter, together with theorems settling the specification's
claims about them.

Times are modelled with exact rational arithmetic (the Python source uses
floating point); frame buffers are modelled by an identity type that
distinguishes backend-owned pool buffers from independently owned conversion
copies.  The file is organized as definitions first, theorems second.
-/

namespace VimbaTest

/-! ## Data model: frames, buffers, pixel formats (vmbpy types used by main.py) -/

/-- Identity of an image buffer: either a buffer from the acquisition
backend's pool, or an independently owned copy produced by pixel-format
conversion (`Frame.convert_pixel_format` allocates a new buffer). -/
inductive Buffer
  | backend (n : Nat)
  | copy (src : Buffer)
deriving DecidableEq, Repr

/-- Frame completion status tags (vmbpy `FrameStatus`). -/
inductive FrameStatus
  | Complete
  | Incomplete
  | TooSmall
  | Invalid
deriving DecidableEq, Repr

/-- Pixel format tags (the subset relevant to main.py). -/
inductive PixelFormat
  | Bgr8
  | Mono8
  | Bayer8
deriving DecidableEq, Repr

/-- `opencv_display_format = PixelFormat.Bgr8` (main.py line 38). -/
def opencv_display_format : PixelFormat := PixelFormat.Bgr8

/-- A frame: an image buffer plus status and pixel-format metadata
(vmbpy `Frame` as used by main.py: `get_status`, `get_pixel_format`,
`convert_pixel_format`, `as_opencv_image`). -/
structure Frame where
  buffer : Buffer
  status : FrameStatus
  pixelFormat : PixelFormat
deriving DecidableEq, Repr

/-- `frame.convert_pixel_format(fmt)`: returns a new frame in the target
format whose pixel data lives in a freshly allocated, independently owned
buffer (not the backend-owned original). -/
def Frame.convert_pixel_format (f : Frame) (fmt : PixelFormat) : Frame :=
  { buffer := Buffer.copy f.buffer, status := f.status, pixelFormat := fmt }

/-- `display.as_opencv_image()`: materializes the frame's buffer as a
displayable image; the image is a view of the same buffer, so it is
modelled as the frame itself (buffer + metadata). -/
def Frame.as_opencv_image (f : Frame) : Frame := f

/-! ## The bounded queue (Python `queue.Queue`, main.py line 156)

`queue.Queue(maxsize)` with `maxsize > 0` is a FIFO channel: `put(item,
block=True)` appends at the back and blocks while `maxsize <= qsize()`;
`get(block=True)` removes from the front and blocks while the queue is
empty.  Blocking is modelled by enabledness of transitions in a step
relation: a blocked operation is one with no enabled transition. -/

/-- `put` can complete (does not block): the queue holds fewer than
`c` items. -/
def putEnabled (c : Nat) (q : List α) : Prop := q.length < c

/-- `get` can complete (does not block): the queue is nonempty. -/
def getEnabled (q : List α) : Prop := q ≠ []

/-- One step of the queue: a producer `put` (enabled only below capacity,
appends at the back) or a consumer `get` (enabled only when nonempty,
removes the front element). -/
inductive QStep (c : Nat) : List α → List α → Prop
  | put (x : α) (q : List α) (h : q.length < c) : QStep c q (q ++ [x])
  | get (x : α) (q : List α) : QStep c (x :: q) q

/-- States reachable from the empty queue by any sequence of puts and gets. -/
def QReachable (c : Nat) (q : List α) : Prop :=
  Relation.ReflTransGen (QStep c) [] q

/-- Capacity of the handler's display queue: `Queue(10)` (main.py line 156). -/
def handlerQueueCapacity : Nat := 10

/-! ## The rate counter (main.py lines 157-158 and 175-187)

`Handler` keeps `frame_count` and `start_time`; per Complete frame it
increments the count, and once elapsed time reaches one second it prints
`frame_count / elapsed_time` and resets both.  `rateStep` is that block
(lines 175-187), instrumented with the list of divisors of the divisions it
actually performs, so that division-safety can be stated. -/

/-- The rate-counter state: `self.frame_count` and `self.start_time`. -/
structure Rate where
  frame_count : Nat
  start_time : ℚ
deriving DecidableEq, Repr

/-- Output of one rate-counter update: the new state, the frame rate printed
(if the one-second window elapsed), and the divisors of the divisions
performed during the update. -/
structure RateStepOut where
  state : Rate
  emitted : Option ℚ
  divisors : List ℚ
deriving DecidableEq, Repr

/-- Lines 175-187 of main.py: increment `frame_count`; compute
`elapsed_time = current_time - start_time`; if at least one second elapsed,
print `frame_count / elapsed_time` and reset the counter and window start. -/
def rateStep (r : Rate) (current_time : ℚ) : RateStepOut :=
  let fc := r.frame_count + 1
  let elapsed_time := current_time - r.start_time
  if 1 ≤ elapsed_time then
    { state := { frame_count := 0, start_time := current_time },
      emitted := some ((fc : ℚ) / elapsed_time),
      divisors := [elapsed_time] }
  else
    { state := { frame_count := fc, start_time := r.start_time },
      emitted := Option.none,
      divisors := [] }

/-- Run the rate counter over a list of frame-arrival times, collecting the
frame rates printed along the way. -/
def rateRun (r : Rate) : List ℚ → Rate × List ℚ
  | [] => (r, [])
  | t :: ts =>
    let out := rateStep r t
    let rest := rateRun out.state ts
    (rest.1, out.emitted.toList ++ rest.2)

/-- Arrival times of `n` frames delivered at a fixed interval `dt`,
continuing the schedule `t0 + k*dt` from index `k`: the times
`t0 + (k+1)*dt, ..., t0 + (k+n)*dt`. -/
def syntheticTimes (t0 dt : ℚ) : Nat → Nat → List ℚ
  | _, 0 => []
  | k, n + 1 => (t0 + ((k : ℚ) + 1) * dt) :: syntheticTimes t0 dt (k + 1) n

/-- The display loop's FPS computation (main.py lines 221-228), instrumented
with the divisors of the divisions it performs: the division
`handler.frame_count / elapsed_time` happens only under the guard
`elapsed_time > 0`; otherwise the displayed rate is 0 and no division is
performed. -/
def loopFrameRate (frame_count : Nat) (elapsed_time : ℚ) : ℚ × List ℚ :=
  if 0 < elapsed_time then ((frame_count : ℚ) / elapsed_time, [elapsed_time])
  else (0, [])

/-! ## The frame handler (main.py lines 154-189) -/

/-- The `Handler` object's state: the bounded display queue (contents only;
its capacity `10` is enforced by the enabledness of `SysStep.deliver`
below), and the rate-counter fields. -/
structure Handler where
  display_queue : List Frame
  frame_count : Nat
  start_time : ℚ
deriving DecidableEq, Repr

/-- `Handler.__init__`: empty queue, zero count, window start = now. -/
def Handler.init (now : ℚ) : Handler :=
  { display_queue := [], frame_count := 0, start_time := now }

/-- Result of one completed `Handler.__call__` invocation: the new handler
state, the frames passed to `cam.queue_frame` (in order), and the frame
rates printed. -/
structure CallResult where
  handler : Handler
  requeued : List Frame
  printedRates : List ℚ
deriving DecidableEq, Repr

/-- `Handler.__call__(cam, stream, frame)` (main.py lines 163-189), run to
completion with `current_time = now`: if the frame status is Complete,
obtain `display` (the frame itself when already in the display format,
otherwise a converted copy), put `display.as_opencv_image()` at the back of
the queue, then run the rate-counter block; in every case finish with
`cam.queue_frame(frame)`. -/
def Handler.call (h : Handler) (frame : Frame) (now : ℚ) : CallResult :=
  if frame.status = FrameStatus.Complete then
    let display :=
      if frame.pixelFormat = opencv_display_format then frame
      else frame.convert_pixel_format opencv_display_format
    let out := rateStep ⟨h.frame_count, h.start_time⟩ now
    { handler := { display_queue := h.display_queue ++ [display.as_opencv_image],
                   frame_count := out.state.frame_count,
                   start_time := out.state.start_time },
      requeued := [frame],
      printedRates := out.emitted.toList }
  else
    { handler := h, requeued := [frame], printedRates := [] }

/-- `Handler.__call__` with a fault injected in `convert_pixel_format`:
main.py's `__call__` contains no try/except, so an exception raised by the
conversion (line 171) propagates out of the callback and the trailing
`cam.queue_frame(frame)` (line 189) never executes.  `none` models the
exception escaping; `some` is the normal completed result. -/
def Handler.callRaising (h : Handler) (frame : Frame) (now : ℚ)
    (convertRaises : Bool) : Option CallResult :=
  if frame.status = FrameStatus.Complete then
    if frame.pixelFormat = opencv_display_format then
      some (Handler.call h frame now)
    else if convertRaises then
      Option.none
    else
      some (Handler.call h frame now)
  else
    some (Handler.call h frame now)

/-! ## Order of operations inside `Handler.__call__` (main.py lines 163-189) -/

/-- The observable actions of one `Handler.__call__` invocation. -/
inductive HEvent
  | printAcquired   -- line 165
  | convert         -- line 171
  | enqueue         -- line 173, display_queue.put
  | rateUpdate      -- lines 175-187, frame count and timing-window update
  | requeue         -- line 189, cam.queue_frame
deriving DecidableEq, Repr

/-- The actions `Handler.__call__` performs on a frame, in source order
(lines 163-189): for a Complete frame, the acquisition print, the
conversion (only when the pixel format is not already the display format),
the queue put (line 173), then the rate-counter update (lines 175-187); in
every case `cam.queue_frame` comes last (line 189). -/
def Handler.callEvents (frame : Frame) : List HEvent :=
  (if frame.status = FrameStatus.Complete then
    [HEvent.printAcquired] ++
      (if frame.pixelFormat = opencv_display_format then []
       else [HEvent.convert]) ++
      [HEvent.enqueue, HEvent.rateUpdate]
  else []) ++ [HEvent.requeue]

/-! ## Producer/consumer system

The acquisition backend's thread invokes the handler (a `deliver` action);
the display loop pops images with `handler.get_image()` (a `consume`
action).  A `deliver` of a Complete frame can only complete when the queue
is below its capacity of 10 (`put` blocks while full); `consume` can only
complete when the queue is nonempty (`get` blocks while empty).  Ghost
counters record how many invocations completed and how many frames were
returned to the backend. -/

structure SysState where
  handler : Handler
  delivered : Nat
  requeued : Nat
deriving DecidableEq, Repr

/-- Initial system states: freshly constructed handler, no ghost counts. -/
def SysInit (s : SysState) : Prop :=
  (∃ t0 : ℚ, s.handler = Handler.init t0) ∧ s.delivered = 0 ∧ s.requeued = 0

/-- One system step: a completed handler invocation, or a display-loop pop. -/
inductive SysStep : SysState → SysState → Prop
  | deliver (s : SysState) (frame : Frame) (now : ℚ)
      (hroom : frame.status = FrameStatus.Complete →
        s.handler.display_queue.length < handlerQueueCapacity) :
      SysStep s
        { handler := (Handler.call s.handler frame now).handler,
          delivered := s.delivered + 1,
          requeued := s.requeued + (Handler.call s.handler frame now).requeued.length }
  | consume (s : SysState) (himg : s.handler.display_queue ≠ []) :
      SysStep s
        { s with handler := { s.handler with
            display_queue := s.handler.display_queue.tail } }

/-- System states reachable from some initial state. -/
def SysReachable (s : SysState) : Prop :=
  ∃ s0, SysInit s0 ∧ Relation.ReflTransGen SysStep s0 s

/-- Sample frames for concrete evaluations: a Complete frame already in the
display format, a Complete frame needing conversion, and an Incomplete
frame. -/
def bgrFrame : Frame :=
  { buffer := Buffer.backend 0, status := FrameStatus.Complete,
    pixelFormat := PixelFormat.Bgr8 }

def monoFrame : Frame :=
  { buffer := Buffer.backend 1, status := FrameStatus.Complete,
    pixelFormat := PixelFormat.Mono8 }

def badFrame : Frame :=
  { buffer := Buffer.backend 2, status := FrameStatus.Incomplete,
    pixelFormat := PixelFormat.Bgr8 }

/-! ## The streaming section of `main` (main.py lines 202-255) -/

/-- Events of the streaming section of `main`. -/
inductive MEvent
  | startStreaming   -- line 203, cam.start_streaming
  | pollKey          -- line 213, cv2.waitKey
  | popImage         -- line 218, handler.get_image
  | render           -- line 252, cv2.imshow
  | stopStreaming    -- line 255, cam.stop_streaming
deriving DecidableEq, Repr

/-- How the display loop ends. -/
inductive LoopExit
  | stopKey      -- ENTER observed: break out of the loop (line 216)
  | raised       -- an exception raised during an iteration
  | interrupted  -- an external interrupt delivered during the loop
deriving DecidableEq, Repr

/-- Whether control leaves the try-suite normally or propagating a raise. -/
inductive Outcome
  | ok
  | thrown
deriving DecidableEq, Repr

def LoopExit.outcome : LoopExit → Outcome
  | LoopExit.stopKey => Outcome.ok
  | LoopExit.raised => Outcome.thrown
  | LoopExit.interrupted => Outcome.thrown

/-- Trace of the display loop body (lines 212-252): `n` completed
iterations (each polls for the stop key, pops an image, renders it), then
the loop exits. -/
def displayLoopTrace : Nat → List MEvent
  | 0 => []
  | n + 1 => [MEvent.pollKey, MEvent.popImage, MEvent.render] ++ displayLoopTrace n

/-- Python `try`/`finally`: the finally suite runs exactly once, after the
try suite, whether the try suite completed normally or is propagating an
exception or interrupt (which is re-raised after the suite). -/
def tryFinally (body : List MEvent × Outcome) (finSuite : List MEvent) :
    List MEvent × Outcome :=
  (body.1 ++ finSuite, body.2)

/-- The `try`/`finally` of `main` (lines 202-255): start streaming, run the
display loop until it exits (`n` completed iterations, exit mode `e`), with
`cam.stop_streaming()` as the finally suite. -/
def streamingSection (n : Nat) (e : LoopExit) : List MEvent × Outcome :=
  tryFinally (MEvent.startStreaming :: displayLoopTrace n, e.outcome)
    [MEvent.stopStreaming]

/-! ## CLI argument parsing (main.py lines 66-78) -/

/-- Result of `parse_args`: a normal return carrying the optional camera
id, or a process exit — `sys.exit(0)` after printing usage for a help flag
(line 73), or `abort(..., return_code=2, usage=True)` for a bad argument
count (line 76). -/
inductive ParseOutcome
  | ok (camId : Option String)
  | helpExit
  | argcAbort
deriving DecidableEq, Repr

/-- Process exit code of a non-returning parse outcome. -/
def ParseOutcome.exitCode : ParseOutcome → Option Nat
  | ParseOutcome.ok _ => Option.none
  | ParseOutcome.helpExit => some 0
  | ParseOutcome.argcAbort => some 2

/-- `parse_args` (lines 66-78): first scan every argument for `/h` or `-h`
(print usage and exit 0); then abort with return code 2 when more than one
argument was supplied; otherwise return `None` (no arguments) or the single
argument. -/
def parse_args (args : List String) : ParseOutcome :=
  if args.any (fun a => a == "/h" || a == "-h") then ParseOutcome.helpExit
  else if 1 < args.length then ParseOutcome.argcAbort
  else
    match args with
    | [] => ParseOutcome.ok Option.none
    | a :: _ => ParseOutcome.ok (some a)

/-! ## Camera lookup (main.py lines 81-95) and the pre-streaming phase -/

/-- `get_camera` (lines 81-95): with a truthy camera id (Python `if
camera_id:` — `None` and the empty string are falsy), look the id up and
`abort` (default return code 1) when the lookup raises `VmbCameraError`;
with a falsy id, take the first available camera, or `abort` (return code
1) when there is none. -/
def get_camera (camera_id : Option String) (cams : List String) :
    Except Nat String :=
  match camera_id with
  | some cid =>
    if cid.isEmpty then
      match cams with
      | [] => Except.error 1
      | c :: _ => Except.ok c
    else if cams.contains cid then Except.ok cid else Except.error 1
  | Option.none =>
    match cams with
    | [] => Except.error 1
    | c :: _ => Except.ok c

/-- Phase reached by `main` (lines 192-203): `get_camera` runs before
`cam.start_streaming`, and `abort` calls `sys.exit`, so an abort during
camera lookup terminates the process before streaming can start. -/
inductive MainPhase
  | abortedExit (code : Nat)
  | streaming
deriving DecidableEq, Repr

def mainPhase (camera_id : Option String) (cams : List String) : MainPhase :=
  match get_camera camera_id cams with
  | Except.error c => MainPhase.abortedExit c
  | Except.ok _ => MainPhase.streaming

/-! ## Helper lemmas -/

lemma qstep_length_le (c : Nat) {q q' : List α} (h : QStep c q q')
    (hq : q.length ≤ c) : q'.length ≤ c := by
  cases h with
  | put x q hlt => simpa using hlt
  | get x q => simp at hq ⊢; omega

lemma qreachable_length_le (c : Nat) {q : List α} (h : QReachable c q) :
    q.length ≤ c := by
  induction h with
  | refl => simp
  | tail _ hstep ih => exact qstep_length_le c hstep ih

lemma Buffer.copy_ne (b : Buffer) : Buffer.copy b ≠ b := by
  induction b with
  | backend n => simp
  | copy s ih => intro h; exact ih (by injection h)

lemma handler_call_requeued (h : Handler) (f : Frame) (t : ℚ) :
    (Handler.call h f t).requeued = [f] := by
  unfold Handler.call
  split <;> rfl

lemma handler_call_incomplete (h : Handler) (f : Frame) (t : ℚ)
    (hnc : f.status ≠ FrameStatus.Complete) :
    Handler.call h f t = { handler := h, requeued := [f], printedRates := [] } := by
  unfold Handler.call
  exact if_neg hnc

lemma handler_call_complete_queue (h : Handler) (f : Frame) (t : ℚ)
    (hc : f.status = FrameStatus.Complete) :
    (Handler.call h f t).handler.display_queue =
      h.display_queue ++
        [if f.pixelFormat = opencv_display_format then f
         else f.convert_pixel_format opencv_display_format] := by
  unfold Handler.call
  rw [if_pos hc]
  rfl

/-- One step preserves "every queued image has Complete status". -/
lemma sysStep_queue_complete {s s' : SysState} (hstep : SysStep s s')
    (ih : ∀ img ∈ s.handler.display_queue, img.status = FrameStatus.Complete) :
    ∀ img ∈ s'.handler.display_queue, img.status = FrameStatus.Complete := by
  cases hstep with
  | deliver frame now hroom =>
    intro img himg
    by_cases hc : frame.status = FrameStatus.Complete
    · rw [handler_call_complete_queue s.handler frame now hc] at himg
      rcases List.mem_append.mp himg with hmem | hmem
      · exact ih img hmem
      · simp at hmem
        subst hmem
        split <;> simp [Frame.convert_pixel_format, hc]
    · rw [handler_call_incomplete s.handler frame now hc] at himg
      exact ih img himg
  | consume himgne =>
    intro img himg
    exact ih img (List.mem_of_mem_tail himg)

/-- Every image in the display queue of a reachable state comes from the
Complete branch of the handler. -/
lemma sysReachable_queue_complete {s : SysState} (hs : SysReachable s) :
    ∀ img ∈ s.handler.display_queue, img.status = FrameStatus.Complete := by
  obtain ⟨s0, ⟨⟨t0, hh⟩, _, _⟩, hsteps⟩ := hs
  induction hsteps with
  | refl => simp [hh, Handler.init]
  | tail _ hstep ih => exact sysStep_queue_complete hstep ih

/-- One step preserves "ghost requeue count = ghost delivery count". -/
lemma sysStep_requeued {s s' : SysState} (hstep : SysStep s s')
    (ih : s.requeued = s.delivered) : s'.requeued = s'.delivered := by
  cases hstep with
  | deliver frame now hroom => simp [handler_call_requeued, ih]
  | consume himgne => exact ih

/-- Ghost requeue count equals ghost delivery count in every reachable
state. -/
lemma sysReachable_requeued_eq_delivered {s : SysState} (hs : SysReachable s) :
    s.requeued = s.delivered := by
  obtain ⟨s0, ⟨_, hd0, hr0⟩, hsteps⟩ := hs
  induction hsteps with
  | refl => rw [hd0, hr0]
  | tail _ hstep ih => exact sysStep_requeued hstep ih

/-- Unfolded form of `rateStep`. -/
lemma rateStep_eq (r : Rate) (t : ℚ) :
    rateStep r t =
      if 1 ≤ t - r.start_time then
        { state := { frame_count := 0, start_time := t },
          emitted := some (((r.frame_count + 1 : ℕ) : ℚ) / (t - r.start_time)),
          divisors := [t - r.start_time] }
      else
        { state := { frame_count := r.frame_count + 1, start_time := r.start_time },
          emitted := Option.none, divisors := [] } := rfl

/-- Unfolded form of `rateRun` on a nonempty schedule. -/
lemma rateRun_cons (r : Rate) (t : ℚ) (ts : List ℚ) :
    rateRun r (t :: ts) =
      ((rateRun (rateStep r t).state ts).1,
        (rateStep r t).emitted.toList ++ (rateRun (rateStep r t).state ts).2) := rfl

/-- Invariant of the fixed-interval schedule: starting from a window that
opened at `t0 + j*dt` with `c` frames counted since, the counter emits only
the exact rate `1/dt` — when the window closes at the `(c'+1)`-st frame
since its start, the count is `c'+1` and the elapsed time is `(c'+1)*dt`,
so the quotient is `1/dt`. -/
lemma rateRun_synthetic_aux (t0 dt : ℚ) :
    ∀ (n c j k : Nat), k = c + j →
      ∀ x ∈ (rateRun { frame_count := c, start_time := t0 + (j : ℚ) * dt }
          (syntheticTimes t0 dt k n)).2, x = 1 / dt := by
  intro n
  induction n with
  | zero =>
    intro c j k hk x hx
    simp [syntheticTimes, rateRun] at hx
  | succ n ih =>
    intro c j k hk x hx
    subst hk
    rw [syntheticTimes, rateRun_cons, rateStep_eq] at hx
    have helapsed :
        t0 + (((c + j : ℕ) : ℚ) + 1) * dt - (t0 + (j : ℚ) * dt)
          = ((c : ℚ) + 1) * dt := by push_cast; ring
    rw [helapsed] at hx
    have hccast : ((c + j : ℕ) : ℚ) + 1 = ((c + j + 1 : ℕ) : ℚ) := by
      push_cast; ring
    by_cases hw : 1 ≤ ((c : ℚ) + 1) * dt
    · rw [if_pos hw] at hx
      simp only [Option.toList_some, List.cons_append, List.nil_append,
        List.mem_cons] at hx
      rcases hx with hx | hx
      · subst hx
        have hc1 : (c : ℚ) + 1 ≠ 0 := by positivity
        push_cast
        rw [div_mul_eq_div_div, div_self hc1]
      · rw [hccast] at hx
        exact ih 0 (c + j + 1) (c + j + 1) (by omega) x hx
    · rw [if_neg hw] at hx
      simp only [Option.toList_none, List.nil_append] at hx
      exact ih (c + 1) j (c + j + 1) (by omega) x hx

lemma displayLoopTrace_no_stop (n : Nat) :
    MEvent.stopStreaming ∉ displayLoopTrace n := by
  induction n with
  | zero => simp [displayLoopTrace]
  | succ n ih => simpa [displayLoopTrace] using ih

/-! ## Claim theorems -/

/-- C1: the frame queue is a bounded FIFO channel of fixed capacity (10 in
the code): on every sequence of puts and gets the size stays within
capacity; a put on a full queue is not enabled (blocks) and becomes enabled
only after a step from the full state, which can only be a get removing the
front element; a get on an empty queue is not enabled (blocks) and any put
enables it; and in the capacity-2 scenario the first two puts are enabled,
the third is blocked until a get occurs, after which it is enabled. -/
theorem frameQueue_bounded_fifo_blocking :
    handlerQueueCapacity = 10 ∧
    (∀ (α : Type) (c : Nat) (q : List α), QReachable c q → q.length ≤ c) ∧
    (∀ (α : Type) (c : Nat) (q : List α), q.length = c → ¬ putEnabled c q) ∧
    (∀ (α : Type) (c : Nat) (q q' : List α), q.length = c → 0 < c →
      QStep c q q' → (∃ x, q = x :: q') ∧ putEnabled c q') ∧
    (∀ (α : Type), ¬ getEnabled ([] : List α)) ∧
    (∀ (α : Type) (x : α) (q : List α), getEnabled (q ++ [x])) ∧
    (putEnabled 2 ([] : List Nat) ∧ putEnabled 2 [1] ∧ ¬ putEnabled 2 [1, 2] ∧
      QStep 2 [1, 2] [2] ∧ putEnabled 2 [2]) := by
  refine ⟨rfl, ?_, ?_, ?_, ?_, ?_, ?_, ?_, ?_, QStep.get 1 [2], ?_⟩
  · intro α c q h
    exact qreachable_length_le c h
  · intro α c q hlen hput
    exact absurd hput (by simp [putEnabled, hlen])
  · intro α c q q' hlen hc hstep
    cases hstep with
    | put x q h => omega
    | get x q =>
      refine ⟨⟨x, rfl⟩, ?_⟩
      simp only [putEnabled]
      simp at hlen
      omega
  · intro α
    simp [getEnabled]
  · intro α x q
    simp [getEnabled]
  · simp [putEnabled]
  · simp [putEnabled]
  · simp [putEnabled]
  · simp [putEnabled]

/-- Witness for C1: the capacity-2 state `[1, 2]` is reachable by two puts,
its length is within capacity, a third put is blocked there, and after the
get step removing the front it is enabled again. -/
theorem frameQueue_bounded_fifo_blocking_witness :
    ([1, 2] : List Nat).length ≤ 2 ∧ ¬ putEnabled 2 ([1, 2] : List Nat) ∧
      putEnabled 2 ([2] : List Nat) :=
  ⟨frameQueue_bounded_fifo_blocking.2.1 Nat 2 [1, 2]
      (Relation.ReflTransGen.tail
        (Relation.ReflTransGen.tail Relation.ReflTransGen.refl
          (QStep.put 1 [] (by simp)))
        (QStep.put 2 [1] (by simp))),
   frameQueue_bounded_fifo_blocking.2.2.1 Nat 2 [1, 2] rfl,
   (frameQueue_bounded_fifo_blocking.2.2.2.1 Nat 2 [1, 2] [2] rfl (by simp)
      (QStep.get 1 [2])).2⟩

/-- C2 counterexample: `Handler.__call__` contains no try/except, so an
exception raised while converting a Complete, non-Bgr8 frame propagates and
the invocation never reaches `cam.queue_frame` — the frame is requeued zero
times, not exactly once. -/
theorem handler_requeue_lost_on_exception :
    Handler.callRaising (Handler.init 0) monoFrame 0 true = Option.none := by
  rfl

/-- C2 (amended): every invocation of `Handler.__call__` that runs to
completion requeues the delivered frame exactly once, regardless of status,
so over every sequence of completed invocations (interleaved with consumer
pops) the number of frames requeued equals the number delivered; but
exceptions are not caught internally — a raising invocation skips the
requeue (see the counterexample). -/
theorem handler_requeue_exactly_once :
    (∀ (h : Handler) (f : Frame) (t : ℚ), (Handler.call h f t).requeued = [f]) ∧
    (∀ s, SysReachable s → s.requeued = s.delivered) :=
  ⟨handler_call_requeued, fun _ hs => sysReachable_requeued_eq_delivered hs⟩

/-- Witness for C2: a concrete completed invocation requeues its frame
once, and in a concrete reachable state the requeue count equals the
delivery count. -/
theorem handler_requeue_exactly_once_witness :
    (Handler.call (Handler.init 0) badFrame 0).requeued = [badFrame] ∧
      (SysState.mk (Handler.init 0) 0 0).requeued =
        (SysState.mk (Handler.init 0) 0 0).delivered :=
  ⟨handler_requeue_exactly_once.1 (Handler.init 0) badFrame 0,
   handler_requeue_exactly_once.2 (SysState.mk (Handler.init 0) 0 0)
     ⟨SysState.mk (Handler.init 0) 0 0, ⟨⟨0, rfl⟩, rfl, rfl⟩,
      Relation.ReflTransGen.refl⟩⟩

/-- C3: an invocation on a frame whose status is not Complete performs no
processing — the handler state (queue included) is unchanged and nothing is
printed — yet the frame is still requeued; and in every reachable state of
the producer/consumer system, every image in the frame queue has Complete
status, so no image from an incomplete-status frame ever appears there. -/
theorem incomplete_frames_skipped :
    (∀ (h : Handler) (f : Frame) (t : ℚ), f.status ≠ FrameStatus.Complete →
      Handler.call h f t = { handler := h, requeued := [f], printedRates := [] }) ∧
    (∀ s, SysReachable s →
      ∀ img ∈ s.handler.display_queue, img.status = FrameStatus.Complete) :=
  ⟨handler_call_incomplete, fun _ hs => sysReachable_queue_complete hs⟩

/-- Witness for C3: the concrete Incomplete frame is requeued with the
handler state untouched. -/
theorem incomplete_frames_skipped_witness :
    Handler.call (Handler.init 0) badFrame 0 =
      { handler := Handler.init 0, requeued := [badFrame], printedRates := [] } :=
  incomplete_frames_skipped.1 (Handler.init 0) badFrame 0 (by decide)

/-- C7: for a Complete frame already in the display format (Bgr8) the frame
itself is enqueued, unconverted, still referencing the backend-owned
buffer; for any other pixel format the enqueued image is the conversion
copy — in the display format, owning a fresh buffer distinct from the
original backend-owned one. -/
theorem complete_frame_display_image (h : Handler) (f : Frame) (t : ℚ)
    (hc : f.status = FrameStatus.Complete) :
    (f.pixelFormat = opencv_display_format →
      (Handler.call h f t).handler.display_queue = h.display_queue ++ [f]) ∧
    (f.pixelFormat ≠ opencv_display_format →
      (Handler.call h f t).handler.display_queue =
          h.display_queue ++ [f.convert_pixel_format opencv_display_format] ∧
        (f.convert_pixel_format opencv_display_format).pixelFormat =
          opencv_display_format ∧
        (f.convert_pixel_format opencv_display_format).buffer =
          Buffer.copy f.buffer ∧
        (f.convert_pixel_format opencv_display_format).buffer ≠ f.buffer) := by
  constructor
  · intro hfmt
    rw [handler_call_complete_queue h f t hc, if_pos hfmt]
  · intro hfmt
    refine ⟨?_, rfl, rfl, Buffer.copy_ne f.buffer⟩
    rw [handler_call_complete_queue h f t hc, if_neg hfmt]

/-- Witness for C7: the Bgr8 frame is enqueued in place; the Mono8 frame's
enqueued image is the independent conversion copy. -/
theorem complete_frame_display_image_witness :
    (Handler.call (Handler.init 0) bgrFrame 0).handler.display_queue =
        [] ++ [bgrFrame] ∧
      (Handler.call (Handler.init 0) monoFrame 0).handler.display_queue =
        [] ++ [monoFrame.convert_pixel_format opencv_display_format] :=
  ⟨(complete_frame_display_image (Handler.init 0) bgrFrame 0 rfl).1 rfl,
   ((complete_frame_display_image (Handler.init 0) monoFrame 0 rfl).2
      (by decide)).1⟩

/-- C8 counterexample: on a Complete frame already in the display format,
`Handler.__call__` puts the image onto the queue (line 173) strictly
before it updates the rate counter (lines 175-187) — the claimed order
(rate-counter update, then push) is the reverse of the source's. -/
theorem queue_push_precedes_rate_update :
    Handler.callEvents bgrFrame =
        [HEvent.printAcquired, HEvent.enqueue, HEvent.rateUpdate,
          HEvent.requeue] ∧
      (Handler.callEvents bgrFrame).indexOf HEvent.enqueue <
        (Handler.callEvents bgrFrame).indexOf HEvent.rateUpdate := by
  constructor <;> decide

/-- C8 (amended): for every Complete frame the handler first obtains the
display-ready image (converting only when needed), then pushes it onto the
frame queue, then updates the rate counter, and finally requeues the
frame. -/
theorem complete_frame_event_order (f : Frame)
    (hc : f.status = FrameStatus.Complete) :
    (f.pixelFormat ≠ opencv_display_format →
      (Handler.callEvents f).indexOf HEvent.convert <
        (Handler.callEvents f).indexOf HEvent.enqueue) ∧
    (Handler.callEvents f).indexOf HEvent.enqueue <
      (Handler.callEvents f).indexOf HEvent.rateUpdate ∧
    (Handler.callEvents f).indexOf HEvent.rateUpdate <
      (Handler.callEvents f).indexOf HEvent.requeue := by
  unfold Handler.callEvents
  rw [if_pos hc]
  by_cases hfmt : f.pixelFormat = opencv_display_format
  · rw [if_pos hfmt]
    exact ⟨fun hne => absurd hfmt hne, by decide, by decide⟩
  · rw [if_neg hfmt]
    exact ⟨fun _ => by decide, by decide, by decide⟩

/-- Witness for C8: on the concrete Mono8 Complete frame the conversion
precedes the push, the push precedes the rate-counter update, and the
update precedes the requeue. -/
theorem complete_frame_event_order_witness :
    (Handler.callEvents monoFrame).indexOf HEvent.enqueue <
      (Handler.callEvents monoFrame).indexOf HEvent.rateUpdate :=
  (complete_frame_event_order monoFrame rfl).2.1

/-- C4: however the display loop exits — stop key (normal break), an
exception in some iteration, or an external interrupt — and however many
iterations ran, the finally suite invokes `cam.stop_streaming` exactly
once, and it is the last event, hence after the loop has ended. -/
theorem stop_streaming_exactly_once (n : Nat) (e : LoopExit) :
    (streamingSection n e).1.count MEvent.stopStreaming = 1 ∧
      (streamingSection n e).1.getLast? = some MEvent.stopStreaming := by
  constructor
  · have hns := displayLoopTrace_no_stop n
    simp [streamingSection, tryFinally, List.count_append, List.count_cons,
      List.count_eq_zero.mpr hns]
  · show ((MEvent.startStreaming :: displayLoopTrace n) ++
        [MEvent.stopStreaming]).getLast? = some MEvent.stopStreaming
    exact List.getLast?_concat _

/-- C5 counterexample: the help-flag scan runs before the argument-count
check, so the two-argument list `["-h", "extra"]` exits with code 0 (help)
rather than aborting with a non-zero code — refuting "every argument list
whose count exceeds one aborts with a non-zero exit code". -/
theorem help_flag_trumps_argc_abort :
    1 < (["-h", "extra"] : List String).length ∧
      parse_args ["-h", "extra"] = ParseOutcome.helpExit ∧
      (parse_args ["-h", "extra"]).exitCode = some 0 := by
  refine ⟨by decide, by decide, by decide⟩

/-- C5 (amended): zero arguments return no identifier; one non-help
argument is returned as the identifier; any argument list containing a help
flag (`/h` or `-h`) prints usage and exits with code 0, even when the list
is longer than one; and any list longer than one containing no help flag
aborts with the non-zero exit code 2. -/
theorem parse_args_cases :
    parse_args [] = ParseOutcome.ok Option.none ∧
    (∀ a : String, a ≠ "/h" → a ≠ "-h" →
      parse_args [a] = ParseOutcome.ok (some a)) ∧
    (∀ args : List String, (∃ a ∈ args, a = "/h" ∨ a = "-h") →
      parse_args args = ParseOutcome.helpExit ∧
        (parse_args args).exitCode = some 0) ∧
    (∀ args : List String, 1 < args.length →
      (∀ a ∈ args, a ≠ "/h" ∧ a ≠ "-h") →
      parse_args args = ParseOutcome.argcAbort ∧
        ∃ c, (parse_args args).exitCode = some c ∧ c ≠ 0) := by
  refine ⟨rfl, ?_, ?_, ?_⟩
  · intro a ha1 ha2
    simp [parse_args, ha1, ha2]
  · intro args ⟨a, hmem, hor⟩
    have hcond : args.any (fun a => a == "/h" || a == "-h") = true :=
      List.any_eq_true.mpr ⟨a, hmem, by rcases hor with h | h <;> simp [h]⟩
    have hres : parse_args args = ParseOutcome.helpExit := by
      unfold parse_args
      rw [if_pos hcond]
    exact ⟨hres, by rw [hres]; rfl⟩
  · intro args hlen hnone
    have hcond : args.any (fun a => a == "/h" || a == "-h") = false := by
      rw [List.any_eq_false]
      intro a hmem
      simp [(hnone a hmem).1, (hnone a hmem).2]
    have hres : parse_args args = ParseOutcome.argcAbort := by
      unfold parse_args
      rw [if_neg (by simp [hcond]), if_pos hlen]
    exact ⟨hres, 2, by rw [hres]; rfl, by decide⟩

/-- Witness for C5: one ordinary argument is returned as the identifier,
and two ordinary arguments abort. -/
theorem parse_args_cases_witness :
    parse_args ["cam1"] = ParseOutcome.ok (some "cam1") ∧
      parse_args ["a", "b"] = ParseOutcome.argcAbort :=
  ⟨parse_args_cases.2.1 "cam1" (by decide) (by decide),
   (parse_args_cases.2.2.2 ["a", "b"] (by decide) (by decide)).1⟩

/-- C6: whenever a requested (nonempty) camera identifier is not among the
available cameras, or no identifier is requested and no cameras are
present, `get_camera` aborts with return code 1, and since `get_camera`
runs before `cam.start_streaming` and `abort` exits the process, the
streaming loop never starts. -/
theorem camera_lookup_fatal (camera_id : Option String) (cams : List String)
    (hfail : (∃ cid, camera_id = some cid ∧ cid.isEmpty = false ∧ cid ∉ cams) ∨
      (camera_id = Option.none ∧ cams = [])) :
    get_camera camera_id cams = Except.error 1 ∧
      mainPhase camera_id cams = MainPhase.abortedExit 1 ∧
      mainPhase camera_id cams ≠ MainPhase.streaming := by
  have hg : get_camera camera_id cams = Except.error 1 := by
    rcases hfail with ⟨cid, hid, hne, hnotin⟩ | ⟨hid, hcams⟩
    · subst hid
      simp [get_camera, hne, hnotin]
    · subst hid
      subst hcams
      rfl
  refine ⟨hg, ?_, ?_⟩ <;> simp [mainPhase, hg]

/-- Witness for C6: with no identifier and zero cameras, the process aborts
with return code 1 before streaming. -/
theorem camera_lookup_fatal_witness :
    get_camera Option.none [] = Except.error 1 ∧
      mainPhase Option.none [] = MainPhase.abortedExit 1 :=
  ⟨(camera_lookup_fatal Option.none [] (Or.inr ⟨rfl, rfl⟩)).1,
   (camera_lookup_fatal Option.none [] (Or.inr ⟨rfl, rfl⟩)).2.1⟩

/-- C9: over a synthetic sequence of `n` frames delivered at the fixed
interval `dt > 0` starting from the counter's window start `t0`, every
frame rate the rate counter emits equals `1/dt` exactly (the embedding uses
exact rational arithmetic, so exact equality implies convergence within any
floating-point tolerance). -/
theorem fps_equals_interval_inverse (t0 dt : ℚ) (n : Nat) (_hdt : 0 < dt) :
    ∀ x ∈ (rateRun { frame_count := 0, start_time := t0 }
        (syntheticTimes t0 dt 0 n)).2, x = 1 / dt := by
  have h := rateRun_synthetic_aux t0 dt n 0 0 0 rfl
  simpa using h

/-- Witness for C9: with `dt = 1/2`, two frames at times `1/2` and `1`
close the first window at the second frame and the emitted rate is
`2 = 1/dt`. -/
theorem fps_equals_interval_inverse_witness : (2 : ℚ) = 1 / (1 / 2 : ℚ) :=
  fps_equals_interval_inverse 0 (1 / 2) 2 (by norm_num) 2 (by
    show (2 : ℚ) ∈ (rateRun { frame_count := 0, start_time := (0 : ℚ) }
      (syntheticTimes 0 (1 / 2) 0 2)).2
    norm_num [rateRun, rateStep, syntheticTimes])

/-- C10: the FPS computations never divide by zero — every divisor the
display loop's rate computation uses is nonzero (it divides only under the
guard `elapsed_time > 0`, otherwise the rate is 0), and every divisor the
handler's rate update uses is nonzero (it divides only under the guard
`elapsed_time >= 1.0`). -/
theorem fps_divisions_guarded (fc : Nat) (e : ℚ) (r : Rate) (t : ℚ) :
    (∀ d ∈ (loopFrameRate fc e).2, d ≠ 0) ∧
      (∀ d ∈ (rateStep r t).divisors, d ≠ 0) := by
  constructor
  · intro d hd
    by_cases hpos : 0 < e
    · simp only [loopFrameRate, if_pos hpos, List.mem_singleton] at hd
      subst hd
      exact ne_of_gt hpos
    · simp only [loopFrameRate, if_neg hpos, List.not_mem_nil] at hd
  · intro d hd
    by_cases hge : 1 ≤ t - r.start_time
    · rw [rateStep_eq, if_pos hge] at hd
      simp only [List.mem_singleton] at hd
      subst hd
      exact ne_of_gt (lt_of_lt_of_le one_pos hge)
    · rw [rateStep_eq, if_neg hge] at hd
      simp at hd

/-- Witness for C10: at elapsed time 2 both computations divide, and the
divisor 2 is nonzero. -/
theorem fps_divisions_guarded_witness : (2 : ℚ) ≠ 0 ∧ (2 : ℚ) ≠ 0 :=
  ⟨(fps_divisions_guarded 30 2 ⟨5, 0⟩ 2).1 2 (by
      show (2 : ℚ) ∈ (loopFrameRate 30 2).2
      norm_num [loopFrameRate]),
   (fps_divisions_guarded 30 2 ⟨5, 0⟩ 2).2 2 (by
      show (2 : ℚ) ∈ (rateStep ⟨5, 0⟩ 2).divisors
      norm_num [rateStep])⟩

end VimbaTest
